import Mathlib

/-!
Verification development for the crdtree replica engine (`src/crdtree/src/State.ts`).

The `State` class from `State.ts` is embedded shallowly: the mutable class
becomes a `State` structure and every method becomes a pure function from the
old state (or the container arena) to the new one.  TypeScript exceptions
(`RangeError`, `EvalError`) become `Except SErr` results.  JavaScript `Map`s
become association lists whose update keeps the position of an existing key,
matching the insertion-order semantics of `Map.prototype.set`.

`State.ts` imports several modules that are not part of the sources
(`Change`, `Action`, `ArrayUtils`, `Renderer`, `Constants`, `Primitive`,
`StateObject`, `Util`, `API`); those are modelled from the specification and
carry a doc comment saying so.
-/

namespace CRDTree

/-- Modelled from the spec: the missing `API`/`Constants` modules define an
opaque globally unique operation identity with the two sentinels `ROOT` and
`ROOT_PARENT`; an operation identity is a clock plus a site tie-break token. -/
inductive ID where
  | root
  | rootParent
  | op (clock : Nat) (site : Nat)
deriving DecidableEq

/-- Clock component of an identity (sentinels carry clock 0). -/
def idClock : ID → Nat
  | ID.root => 0
  | ID.rootParent => 0
  | ID.op c _ => c

/-- Modelled from the spec: the total order over identities compares clocks
first and breaks ties by the site token; sentinels sort before operations. -/
def idLtB : ID → ID → Bool
  | ID.root, ID.root => false
  | ID.root, _ => true
  | ID.rootParent, ID.root => false
  | ID.rootParent, ID.rootParent => false
  | ID.rootParent, _ => true
  | ID.op _ _, ID.root => false
  | ID.op _ _, ID.rootParent => false
  | ID.op c1 s1, ID.op c2 s2 => decide (c1 < c2) || (c1 == c2 && decide (s1 < s2))

/-- Modelled from the spec: the missing `API` module's `Index` is either a key
(for map containers) or a position (for list containers); the sentinel `ROOT`
is also used as the key of the document's top-level slot. -/
inductive Index where
  | id (i : ID)
  | str (s : String)
  | num (n : Nat)
deriving DecidableEq

/-- Modelled from the spec: `ensureNumber` from the missing `Util` module
yields the numeric value of an index and fails on a non-numeric one. -/
def indexToNat : Index → Option Nat
  | Index.num n => some n
  | _ => none

/-- Modelled from the spec: the missing `Primitive` module's `ObjectKind`:
map container, list container, or primitive (called `OTHER` in the source). -/
inductive ObjectKind where
  | object
  | array
  | other
deriving DecidableEq

/-- Modelled from the spec: payload values: primitives, or an identity used
as a container reference. -/
inductive Val where
  | null
  | vbool (b : Bool)
  | vnum (n : Int)
  | str (s : String)
  | id (i : ID)
deriving DecidableEq

/-- Container-reference extraction (the `entry?.value as ID` cast). -/
def valToID : Option Val → Option ID
  | some (Val.id i) => some i
  | _ => none

/-- Modelled from the spec: the missing `StateObject` module's `Entry`: a slot
inside a container.  The root slot of `ROOT_PARENT` has no name and no value,
so both are optional. -/
structure Entry where
  name : Option ID
  value : Option Val
  kind : ObjectKind
  deleted : Bool
deriving DecidableEq

/-- Modelled from the spec: the missing `Primitive` module's `BackendPrimitive`,
the *item* an operation introduces: `{identity, payload-value, container-kind}`. -/
structure Item where
  name : ID
  value : Val
  kind : ObjectKind
deriving DecidableEq

/-- The entry written for a freshly introduced item (`{name, value, kind,
deleted: false}` in `applyAssignment` and friends). -/
def entryOfItem (it : Item) : Entry :=
  { name := some it.name, value := some it.value, kind := it.kind, deleted := false }

/-- Modelled from the spec: the missing `StateObject` module's `MetaObject`:
a container is either a key-indexed mapping or an ordered sequence of entries. -/
inductive MetaObject where
  | map (entries : List (Index × Entry))
  | arr (entries : List Entry)
deriving DecidableEq

/-- `Map.prototype.get`: first binding of the key. -/
def mapGet : List (Index × Entry) → Index → Option Entry
  | [], _ => none
  | (j, e) :: rest, i => if j = i then some e else mapGet rest i

/-- `Map.prototype.set`: overwrite the existing binding in place (keeping its
position) or append a new binding at the end. -/
def mapSet : List (Index × Entry) → Index → Entry → List (Index × Entry)
  | [], i, e => [(i, e)]
  | (j, f) :: rest, i, e =>
    if j = i then (i, e) :: rest else (j, f) :: mapSet rest i e

/-- The container arena (`MetaMap` = `Map<ID, MetaObject>`). -/
abbrev Arena := List (ID × MetaObject)

/-- Arena lookup (`this.objects.get(name)`). -/
def objGet : Arena → ID → Option MetaObject
  | [], _ => none
  | (j, m) :: rest, i => if j = i then some m else objGet rest i

/-- Arena update (`this.objects.set(name, obj)`), JavaScript `Map` semantics. -/
def objSet : Arena → ID → MetaObject → Arena
  | [], i, m => [(i, m)]
  | (j, w) :: rest, i, m =>
    if j = i then (i, m) :: rest else (j, w) :: objSet rest i m

/-- The freshly rebuilt arena of `reapplyAllChanges`: `ROOT_PARENT` maps the
`ROOT` index to an initially tombstoned, name-less, value-less entry. -/
def rootArena : Arena :=
  [(ID.rootParent,
    MetaObject.map
      [(Index.id ID.root,
        { name := none, value := none, kind := ObjectKind.other, deleted := true })])]

/-- Modelled from the spec: `findIndexInTombstoneArray` from the missing
`ArrayUtils` module scans from the start counting only non-tombstoned entries
until the requested number of live entries has been passed, returning the
physical slot; out of range yields an absent result. -/
def findIndexInTombstoneArray : List Entry → Nat → Option Nat
  | [], _ => none
  | e :: rest, 0 =>
    if e.deleted then (findIndexInTombstoneArray rest 0).map (fun p => p + 1)
    else some 0
  | e :: rest, Nat.succ m =>
    if e.deleted then (findIndexInTombstoneArray rest (m + 1)).map (fun p => p + 1)
    else (findIndexInTombstoneArray rest m).map (fun p => p + 1)

/-- Physical position just after the entry named `a`, or the head if absent. -/
def posAfter (l : List Entry) (a : ID) : Nat :=
  match l with
  | [] => 0
  | e :: rest =>
    if e.name = some a then 1
    else
      match posAfter rest a with
      | 0 => 0
      | Nat.succ p => p + 2

/-- Number of leading entries whose identity sorts before `name`. -/
def skipEarlier (l : List Entry) (name : ID) : Nat :=
  match l with
  | [] => 0
  | e :: rest =>
    match e.name with
    | some m => if idLtB m name then skipEarlier rest name + 1 else 0
    | none => 0

/-- Modelled from the spec: `findInsertionIndex` from the missing `ArrayUtils`
module locates the anchor entry referenced by the insertion (head when there
is no anchor), then walks forward past any entries — tombstoned or not —
whose identity sorts before the new entry's identity under the total order. -/
def findInsertionIndex (l : List Entry) (after : Option ID) (name : ID) : Nat :=
  let start :=
    match after with
    | none => 0
    | some a => posAfter l a
  start + skipEarlier (l.drop start) name

/-- Modelled from the spec: `insertInList` from the missing `ArrayUtils`
module splices a new live entry in at the given physical slot. -/
def insertInList (l : List Entry) (i : Nat) (e : Entry) : List Entry :=
  l.take i ++ e :: l.drop i

/-- Modelled from the spec: `assignToList` from the missing `ArrayUtils`
module resolves the logical slot tombstone-aware and overwrites the physical
slot with the new entry; an out-of-range logical index resolves to an absent
physical slot and leaves the sequence unchanged. -/
def assignToList (l : List Entry) (at_ : Nat) (it : Item) : List Entry :=
  match findIndexInTombstoneArray l at_ with
  | none => l
  | some p => l.set p (entryOfItem it)

/-- Modelled from the spec: the missing `Action` module's four operation
kinds, with the fields read by `State.ts` (`item`, `at`, `in`, and the
insertion anchor `after`). -/
inductive Action where
  | assign (item : Item) (at_ : Index) (parent : ID)
  | listAssign (item : Item) (at_ : Nat) (parent : ID)
  | insert (item : Item) (after : Option ID) (parent : ID)
  | delete (at_ : ID) (parent : ID)
deriving DecidableEq

/-- Modelled from the spec: the missing `Change` module's `BackendChange`:
an operation stamped with its clock, its site tie-break token, and an
optional causal dependency. -/
structure BackendChange where
  clock : Nat
  site : Nat
  dep : Option ID
  action : Action
deriving DecidableEq

/-- Modelled from the spec: `toID` from the missing `Change` module names the
change by its clock and site. -/
def toID (c : BackendChange) : ID := ID.op c.clock c.site

/-- Modelled from the spec: `ensureBackendChange` from the missing `Change`
module normalizes a change into the log's canonical representation; changes
are embedded already in backend form, so it is the identity. -/
def ensureBackendChange (c : BackendChange) : BackendChange := c

/-- Modelled from the spec: `changeSortCompare` from the missing `Change`
module orders changes by the total order over their identities. -/
def changeLtB (a b : BackendChange) : Bool := idLtB (toID a) (toID b)

/-- The non-strict order induced by the sort comparator. -/
def changeLE (a b : BackendChange) : Prop := changeLtB b a = false

instance : DecidableRel changeLE := fun a b => by
  unfold changeLE; infer_instance

/-- `Array.prototype.sort(changeSortCompare)`. -/
def sortChanges (l : List BackendChange) : List BackendChange :=
  List.insertionSort changeLE l

/-- Last element of a non-empty list, given head and tail
(`changes[changes.length - 1]`). -/
def lastOf (c : BackendChange) : List BackendChange → BackendChange
  | [] => c
  | x :: xs => lastOf x xs

/-- Greatest clock appearing in a list of changes. -/
def maxClock (l : List BackendChange) : Nat :=
  l.foldr (fun c acc => max c.clock acc) 0

/-- Errors thrown by `State.ts`: `missing` is the `RangeError` of
`getMetaObject` (indexable element does not exist), `conflict` covers the
structural-conflict throws of `applyAssignment` / `applyListAssignment` /
`applyInsertion` (wrong container shape), and `badIndex` is the failure of
`ensureNumber` on a non-numeric index. -/
inductive SErr where
  | missing
  | conflict
  | badIndex
deriving DecidableEq

/-- `createMetaObject`: lazily create an empty container for a map/list item,
keyed by the item's own identity; primitives create nothing. -/
def createMetaObject (a : Arena) (it : Item) : Arena :=
  match it.kind with
  | ObjectKind.object => objSet a it.name (MetaObject.map [])
  | ObjectKind.array => objSet a it.name (MetaObject.arr [])
  | ObjectKind.other => a

/-- `applyAssignment`: set the key in a map-shaped parent; a list-shaped
parent raises the structural-conflict `EvalError`. -/
def applyAssignment (a : Arena) (it : Item) (at_ : Index) (parent : ID) :
    Except SErr Arena :=
  match objGet a parent with
  | none => Except.error SErr.missing
  | some (MetaObject.arr _) => Except.error SErr.conflict
  | some (MetaObject.map m) =>
    Except.ok (createMetaObject (objSet a parent (MetaObject.map (mapSet m at_ (entryOfItem it)))) it)

/-- `applyListAssignment`: overwrite the logical slot of a list-shaped parent;
a map-shaped parent raises the structural-conflict `EvalError`. -/
def applyListAssignment (a : Arena) (it : Item) (at_ : Nat) (parent : ID) :
    Except SErr Arena :=
  match objGet a parent with
  | none => Except.error SErr.missing
  | some (MetaObject.map _) => Except.error SErr.conflict
  | some (MetaObject.arr l) =>
    Except.ok (createMetaObject (objSet a parent (MetaObject.arr (assignToList l at_ it))) it)

/-- `applyInsertion`: splice a new live entry into a list-shaped parent at the
computed insertion index; a map-shaped parent raises (a `RangeError` in the
source, a structural conflict per the spec's table). -/
def applyInsertion (a : Arena) (it : Item) (after : Option ID) (parent : ID) :
    Except SErr Arena :=
  match objGet a parent with
  | none => Except.error SErr.missing
  | some (MetaObject.map _) => Except.error SErr.conflict
  | some (MetaObject.arr l) =>
    Except.ok (createMetaObject
      (objSet a parent (MetaObject.arr (insertInList l (findInsertionIndex l after it.name) (entryOfItem it))))
      it)

/-- The per-entry update of `applyDeletion`: `{...entry, deleted: true}` when
the entry's stored identity equals the delete target, the entry unchanged
otherwise. -/
def flagIf (at_ : ID) (e : Entry) : Entry :=
  if e.name = some at_ then { e with deleted := true } else e

/-- The container update performed by `applyDeletion`: flag every matching
entry (scanning list entries or map entries). -/
def tombstoneIn (mo : MetaObject) (at_ : ID) : MetaObject :=
  match mo with
  | MetaObject.arr l => MetaObject.arr (l.map (flagIf at_))
  | MetaObject.map m => MetaObject.map (m.map (fun p => (p.1, flagIf at_ p.2)))

/-- `applyDeletion`: flag every entry of the named parent whose stored
identity equals the delete target; only a missing parent container raises. -/
def applyDeletion (a : Arena) (at_ : ID) (parent : ID) : Except SErr Arena :=
  match objGet a parent with
  | none => Except.error SErr.missing
  | some mo => Except.ok (objSet a parent (tombstoneIn mo at_))

/-- `applyChange`: dispatch on the operation kind. -/
def applyChange (a : Arena) (c : BackendChange) : Except SErr Arena :=
  match c.action with
  | Action.assign it at_ parent => applyAssignment a it at_ parent
  | Action.listAssign it at_ parent => applyListAssignment a it at_ parent
  | Action.insert it after parent => applyInsertion a it after parent
  | Action.delete at_ parent => applyDeletion a at_ parent

/-- The causal gate of `applyChanges`: a change passes when it has no declared
dependency or the dependency's identity is in the seen-set. -/
def gatePass (seenIds : List ID) (c : BackendChange) : Bool :=
  match c.dep with
  | none => true
  | some d => decide (d ∈ seenIds)

/-- Apply a list of changes left to right; a thrown error aborts the pass,
leaving the arena as mutated so far (TypeScript `forEach` with a `throw`). -/
def applyEligible : Arena → List BackendChange → Arena × Option SErr
  | a, [] => (a, none)
  | a, c :: cs =>
    match applyChange a c with
    | Except.ok a2 => applyEligible a2 cs
    | Except.error e => (a, some e)

/-- `applyChanges`: filter by the causal gate, then apply in order. -/
def applyChanges (seenIds : List ID) (a : Arena) (cs : List BackendChange) :
    Arena × Option SErr :=
  applyEligible a (cs.filter (fun c => gatePass seenIds c))

/-- `reapplyAllChanges`: rebuild the arena from the empty root by replaying
the whole log. -/
def reapplyAllChanges (seenIds : List ID) (cs : List BackendChange) :
    Arena × Option SErr :=
  applyChanges seenIds rootArena cs

/-- The replica state: log, seen-set, high-water clock, container arena. -/
structure State where
  changes : List BackendChange
  seenIds : List ID
  clock : Nat
  objects : Arena
deriving DecidableEq

/-- `seen`: O(1) duplicate detection against the seen-set. -/
def seen (s : State) (i : ID) : Bool := decide (i ∈ s.seenIds)

/-- `witness`: mark the identities of the given changes as seen. -/
def witness (s : State) (cs : List BackendChange) : State :=
  { s with seenIds := s.seenIds ++ cs.map toID }

/-- `next()`: one past the current high-water clock. -/
def next (s : State) : Nat := s.clock + 1

/-- `latest()`: identity of the last change in the log, if any. -/
def latest (s : State) : Option ID :=
  match s.changes with
  | [] => none
  | c :: rest => some (toID (lastOf c rest))

/-- The deduplicated, normalized, sorted batch computed at the top of
`addChange`. -/
def processBatch (s : State) (cs : List BackendChange) : List BackendChange :=
  sortChanges ((cs.filter (fun c => !seen s (toID c))).map ensureBackendChange)

/-- `addChange` (the body of `submit`): filter out already-seen identities,
normalize, sort, witness; then either append-and-apply (fast path, when the
sorted batch's head clock exceeds the high-water clock) or merge-sort the log
and rebuild from the empty root (slow path).  Returns the new state, the
accepted batch, and the error of an aborted apply pass, if any. -/
def addChange (s : State) (cs : List BackendChange) :
    State × List BackendChange × Option SErr :=
  match processBatch s cs with
  | [] => (witness s [], [], none)
  | c :: rest =>
    let b := c :: rest
    let s1 := witness s b
    if s.clock < c.clock then
      let s2 := { s1 with clock := (lastOf c rest).clock, changes := s1.changes ++ b }
      let p := applyChanges s2.seenIds s2.objects b
      ({ s2 with objects := p.1 }, b, p.2)
    else
      let s2 := { s1 with changes := sortChanges (s1.changes ++ b) }
      let p := reapplyAllChanges s2.seenIds s2.changes
      ({ s2 with objects := p.1 }, b, p.2)

/-- The constructor: take over an already-sorted persisted log, read the
high-water clock off its last entry, witness everything and replay once. -/
def initState (cs : List BackendChange) : State × Option SErr :=
  let seen0 := cs.map toID
  let clock0 :=
    match cs with
    | [] => 0
    | c :: rest => (lastOf c rest).clock
  let p := reapplyAllChanges seen0 cs
  ({ changes := cs, seenIds := seen0, clock := clock0, objects := p.1 }, p.2)

/-- A replica started from an empty log. -/
def emptyState : State := (initState []).1

/-- `listChanges()`: snapshot of the log. -/
def listChanges (s : State) : List BackendChange := s.changes

/-- Fetch the entry at a logical index inside a container: map lookup, or
tombstone-aware list lookup after `ensureNumber`. -/
def fetchEntry (mo : MetaObject) (i : Index) : Except SErr (Option Entry) :=
  match mo with
  | MetaObject.map m => Except.ok (mapGet m i)
  | MetaObject.arr l =>
    match indexToNat i with
    | none => Except.error SErr.badIndex
    | some n =>
      Except.ok
        (match findIndexInTombstoneArray l n with
         | some p => l.get? p
         | none => none)

/-- One step of `getElementImpl`'s reduce: look up the container for the
running identity (`getMetaObject` throws on an absent one), fetch the entry at
the index, and compute the next running identity: absent for a tombstoned or
missing entry, the entry's own name for a primitive, the entry's stored value
(as a container reference) otherwise. -/
def getElementStep (a : Arena) (name : Option ID) (i : Index) :
    Except SErr (Option ID) :=
  match name with
  | none => Except.error SErr.missing
  | some n =>
    match objGet a n with
    | none => Except.error SErr.missing
    | some mo =>
      match fetchEntry mo i with
      | Except.error e => Except.error e
      | Except.ok none => Except.ok none
      | Except.ok (some e) =>
        Except.ok
          (if e.deleted then none
           else if e.kind = ObjectKind.other then e.name
           else valToID e.value)

/-- `getElementImpl`: fold the steps over the path (a thrown error aborts the
reduce). -/
def getElementImpl (a : Arena) : Option ID → List Index → Except SErr (Option ID)
  | name, [] => Except.ok name
  | name, i :: rest =>
    match getElementStep a name i with
    | Except.ok nm => getElementImpl a nm rest
    | Except.error e => Except.error e

/-- `getElement`: resolve a path starting at the `ROOT` slot of `ROOT_PARENT`. -/
def getElement (s : State) (indices : List Index) : Except SErr (Option ID) :=
  getElementImpl s.objects (some ID.rootParent) (Index.id ID.root :: indices)

/-- `getParentElement`: resolve the path with its last element dropped and
assert the result is indexable (`getMetaObject` for its side effect). -/
def getParentElement (s : State) (indices : List Index) : Except SErr ID :=
  match getElementImpl s.objects (some ID.rootParent) ((Index.id ID.root :: indices).dropLast) with
  | Except.error e => Except.error e
  | Except.ok none => Except.error SErr.missing
  | Except.ok (some n) =>
    match objGet s.objects n with
    | none => Except.error SErr.missing
    | some _ => Except.ok n

/-- Modelled from the spec: output tokens of the missing `Renderer` module's
`render`; the plain nested output value is represented as a canonical flat
token stream so that equality of rendered documents is decidable. -/
inductive RTok where
  | mapOpen
  | mapClose
  | arrOpen
  | arrClose
  | keyTok (i : Index)
  | primTok (v : Val)
  | nullTok
deriving DecidableEq

/-- Modelled from the spec: render one entry: a primitive becomes its stored
payload value, a nested container is recursively rendered through the entry's
identity. -/
def renderObj (a : Arena) : Nat → ID → List RTok
  | 0, _ => [RTok.nullTok]
  | Nat.succ fuel, n =>
    match objGet a n with
    | none => [RTok.nullTok]
    | some (MetaObject.map m) =>
      RTok.mapOpen ::
        ((m.filter (fun p => p.2.deleted = false)).flatMap
          (fun p =>
            RTok.keyTok p.1 ::
              (if p.2.kind = ObjectKind.other then
                [RTok.primTok (p.2.value.getD Val.null)]
               else
                match p.2.name with
                | some c => renderObj a fuel c
                | none => [RTok.nullTok]))) ++ [RTok.mapClose]
    | some (MetaObject.arr l) =>
      RTok.arrOpen ::
        ((l.filter (fun e => e.deleted = false)).flatMap
          (fun e =>
            if e.kind = ObjectKind.other then
              [RTok.primTok (e.value.getD Val.null)]
            else
              match e.name with
              | some c => renderObj a fuel c
              | none => [RTok.nullTok])) ++ [RTok.arrClose]

/-- Modelled from the spec: the missing `Renderer` module's `render` walks the
Container Store from `ROOT` (the sole entry of `ROOT_PARENT`), omitting
tombstones and recursively rendering nested containers. -/
def render (a : Arena) : List RTok :=
  match objGet a ID.rootParent with
  | some (MetaObject.map m) =>
    match mapGet m (Index.id ID.root) with
    | some e =>
      if e.deleted then [RTok.nullTok]
      else if e.kind = ObjectKind.other then [RTok.primTok (e.value.getD Val.null)]
      else
        match e.name with
        | some c => renderObj a (a.length + 1) c
        | none => [RTok.nullTok]
    | none => [RTok.nullTok]
  | _ => [RTok.nullTok]

/-! ### Concrete operation streams used by the evaluations below

Five causally independent assignments from three sites: `op1` creates the
document's root object, the others write primitive keys into it. -/

/-- Clock 1: create the root object. -/
def op1 : BackendChange :=
  { clock := 1, site := 10, dep := none,
    action := Action.assign
      { name := ID.op 1 10, value := Val.id (ID.op 1 10), kind := ObjectKind.object }
      (Index.id ID.root) ID.rootParent }

/-- Clock 2: set key `k` to `"x"`. -/
def op2 : BackendChange :=
  { clock := 2, site := 10, dep := none,
    action := Action.assign
      { name := ID.op 2 10, value := Val.str "x", kind := ObjectKind.other }
      (Index.str "k") (ID.op 1 10) }

/-- Clock 3: set key `q` to `"w"`. -/
def op3 : BackendChange :=
  { clock := 3, site := 10, dep := none,
    action := Action.assign
      { name := ID.op 3 10, value := Val.str "w", kind := ObjectKind.other }
      (Index.str "q") (ID.op 1 10) }

/-- Clock 4 (site 11): set key `k` to `"z"`. -/
def op4 : BackendChange :=
  { clock := 4, site := 11, dep := none,
    action := Action.assign
      { name := ID.op 4 11, value := Val.str "z", kind := ObjectKind.other }
      (Index.str "k") (ID.op 1 10) }

/-- Clock 5 (site 12): set key `k` to `"y"`. -/
def op5 : BackendChange :=
  { clock := 5, site := 12, dep := none,
    action := Action.assign
      { name := ID.op 5 12, value := Val.str "y", kind := ObjectKind.other }
      (Index.str "k") (ID.op 1 10) }

/-- Arrival order A, step 1: clocks 1 and 3 (fast path, high-water 3). -/
def sA1 : State := (addChange emptyState [op1, op3]).1

/-- Arrival order A, step 2: clocks 2 and 5 (slow path — the merge leaves the
high-water clock at 3 although clock 5 is now in the log). -/
def sA2 : State := (addChange sA1 [op2, op5]).1

/-- Arrival order A, step 3: clock 4, which now wrongly takes the fast path. -/
def sA3 : State := (addChange sA2 [op4]).1

/-- Arrival order B: all five operations in clock order. -/
def sB1 : State := (addChange emptyState [op1, op2, op3, op4, op5]).1

/-- Deferred operation: clock 5 (site 40) declares a causal dependency on the
clock-4 operation `opD4` and writes key `j`. -/
def opO5 : BackendChange :=
  { clock := 5, site := 40, dep := some (ID.op 4 41),
    action := Action.assign
      { name := ID.op 5 40, value := Val.str "v", kind := ObjectKind.other }
      (Index.str "j") (ID.op 1 10) }

/-- The dependency of `opO5`: clock 4 (site 41), writes key `m`. -/
def opD4 : BackendChange :=
  { clock := 4, site := 41, dep := none,
    action := Action.assign
      { name := ID.op 4 41, value := Val.str "t", kind := ObjectKind.other }
      (Index.str "m") (ID.op 1 10) }

/-- Deferral scenario, step 2: clocks 2 and 5 merge on the slow path; `opO5`
is gated (its dependency has not arrived) and stays unapplied in the log. -/
def t2 : State := (addChange sA1 [op2, opO5]).1

/-- Deferral scenario, step 3: the dependency `opD4` arrives, but with clock 4
above the stale high-water clock 3 it takes the fast path and triggers no
rebuild, so `opO5` is still not applied. -/
def t3 : State := (addChange t2 [opD4]).1

/-! ### Concrete containers and operations used by witnesses and counterexamples -/

/-- Entries of a container, shape-independent. -/
def entriesOf : MetaObject → List Entry
  | MetaObject.map m => m.map (fun p => p.2)
  | MetaObject.arr l => l

/-- Item identity introduced by an action, if any. -/
def itemNameOf : Action → Option ID
  | Action.assign it _ _ => some it.name
  | Action.listAssign it _ _ => some it.name
  | Action.insert it _ _ => some it.name
  | Action.delete _ _ => none

/-- A list container next to the root containers, for the C5 witness. -/
def aC5 : Arena := (ID.op 7 7, MetaObject.arr []) :: rootArena

/-- A primitive item, for the C5 witness. -/
def itW5 : Item := { name := ID.op 9 9, value := Val.str "p", kind := ObjectKind.other }

/-- A list container holding one live and one tombstoned entry, for C6. -/
def aC6 : Arena :=
  (ID.op 8 8,
    MetaObject.arr
      [{ name := some (ID.op 2 2), value := some (Val.str "u"), kind := ObjectKind.other,
         deleted := false },
       { name := some (ID.op 3 3), value := some (Val.str "d"), kind := ObjectKind.other,
         deleted := true }]) :: rootArena

/-- The tombstoned entry sitting at key `k` (C8 counterexample). -/
def entA8 : Entry :=
  { name := some (ID.op 2 50), value := some (Val.str "old"),
    kind := ObjectKind.other, deleted := true }

/-- The live entry that replaces it (C8 counterexample). -/
def entB8 : Entry :=
  { name := some (ID.op 3 51), value := some (Val.str "new"),
    kind := ObjectKind.other, deleted := false }

/-- The map container whose tombstoned entry gets replaced (C8 counterexample). -/
def aC8 : Arena := [(ID.op 1 50, MetaObject.map [(Index.str "k", entA8)])]

/-- Assignment of a fresh item to the key `k` of `aC8`'s container. -/
def cB8 : BackendChange :=
  { clock := 4, site := 51, dep := none,
    action := Action.assign
      { name := ID.op 3 51, value := Val.str "new", kind := ObjectKind.other }
      (Index.str "k") (ID.op 1 50) }

/-- The tombstoned entry of the C8 witness list. -/
def eT8 : Entry :=
  { name := some (ID.op 2 60), value := some (Val.str "gone"),
    kind := ObjectKind.other, deleted := true }

/-- The live entry of the C8 witness list. -/
def eL8 : Entry :=
  { name := some (ID.op 3 60), value := some (Val.str "live"),
    kind := ObjectKind.other, deleted := false }

/-- The entry spliced in by the C8 witness insertion. -/
def eI8 : Entry :=
  { name := some (ID.op 4 60), value := some (Val.str "ins"),
    kind := ObjectKind.other, deleted := false }

/-- List container with a tombstoned and a live entry (C8 witness). -/
def aW8 : Arena := [(ID.op 1 60, MetaObject.arr [eT8, eL8])]

/-- An insertion into the list container of `aW8` (C8 witness). -/
def cW8 : BackendChange :=
  { clock := 4, site := 60, dep := none,
    action := Action.insert
      { name := ID.op 4 60, value := Val.str "ins", kind := ObjectKind.other }
      none (ID.op 1 60) }

/-- The arena after the C8 witness insertion. -/
def aW8r : Arena := [(ID.op 1 60, MetaObject.arr [eT8, eL8, eI8])]

/-- A live primitive entry (C9 witness). -/
def eP9 : Entry :=
  { name := some (ID.op 2 70), value := some (Val.str "pv"),
    kind := ObjectKind.other, deleted := false }

/-- Arena for the C9 witness. -/
def aW9 : Arena := [(ID.op 1 70, MetaObject.map [(Index.str "a", eP9)])]

/-- Operation with an unsatisfied dependency (used by the C10 witness). -/
def opX10 : BackendChange :=
  { clock := 1, site := 30, dep := some (ID.op 9 9),
    action := Action.assign
      { name := ID.op 1 30, value := Val.str "a", kind := ObjectKind.other }
      (Index.str "a") ID.rootParent }

/-- Operation depending on `opX10`, submitted in the same batch. -/
def opY10 : BackendChange :=
  { clock := 2, site := 30, dep := some (ID.op 1 30),
    action := Action.assign
      { name := ID.op 2 30, value := Val.str "b", kind := ObjectKind.other }
      (Index.str "b") ID.rootParent }

/-! ### Order and sorting lemmas -/

theorem changeLtB_iff (a b : BackendChange) :
    changeLtB a b = true ↔
      a.clock < b.clock ∨ (a.clock = b.clock ∧ a.site < b.site) := by
  simp [changeLtB, toID, idLtB, Bool.or_eq_true, Bool.and_eq_true,
    decide_eq_true_eq, beq_iff_eq]

theorem changeLtB_false_iff (a b : BackendChange) :
    changeLtB a b = false ↔
      ¬(a.clock < b.clock ∨ (a.clock = b.clock ∧ a.site < b.site)) := by
  rw [← changeLtB_iff]
  cases changeLtB a b <;> simp

theorem changeLE_total (a b : BackendChange) : changeLE a b ∨ changeLE b a := by
  unfold changeLE
  cases h1 : changeLtB b a
  · exact Or.inl rfl
  · cases h2 : changeLtB a b
    · exact Or.inr rfl
    · exfalso
      have hab := (changeLtB_iff a b).mp h2
      have hba := (changeLtB_iff b a).mp h1
      omega

theorem changeLE_trans (a b c : BackendChange) :
    changeLE a b → changeLE b c → changeLE a c := by
  unfold changeLE
  rw [changeLtB_false_iff, changeLtB_false_iff, changeLtB_false_iff]
  omega

instance : IsTotal BackendChange changeLE := ⟨changeLE_total⟩

instance : IsTrans BackendChange changeLE := ⟨changeLE_trans⟩

theorem clock_le_of_changeLE (a b : BackendChange) (h : changeLE a b) :
    a.clock ≤ b.clock := by
  rw [changeLE, changeLtB_false_iff] at h
  omega

theorem mem_sortChanges (x : BackendChange) (l : List BackendChange) :
    x ∈ sortChanges l ↔ x ∈ l :=
  List.mem_insertionSort changeLE

theorem sorted_sortChanges (l : List BackendChange) :
    (sortChanges l).Sorted changeLE :=
  List.sorted_insertionSort changeLE l

theorem map_ensureBackendChange (l : List BackendChange) :
    l.map ensureBackendChange = l := by
  induction l with
  | nil => rfl
  | cons a t ih => simp [ensureBackendChange, ih]

theorem mem_processBatch (s : State) (cs : List BackendChange) (x : BackendChange) :
    x ∈ processBatch s cs ↔ x ∈ cs ∧ seen s (toID x) = false := by
  rw [processBatch, mem_sortChanges, map_ensureBackendChange, List.mem_filter]
  simp

theorem sorted_processBatch (s : State) (cs : List BackendChange) :
    (processBatch s cs).Sorted changeLE :=
  sorted_sortChanges _

theorem lastOf_mem (c : BackendChange) (l : List BackendChange) :
    lastOf c l ∈ c :: l := by
  induction l generalizing c with
  | nil => simp [lastOf]
  | cons x xs ih =>
    rw [lastOf]
    exact List.mem_cons_of_mem c (ih x)

/-! ### Arena and list helper lemmas -/

theorem objGet_objSet_self (a : Arena) (k : ID) (v : MetaObject) :
    objGet (objSet a k v) k = some v := by
  induction a with
  | nil => simp [objSet, objGet]
  | cons p rest ih =>
    by_cases h : p.1 = k
    · simp [objSet, objGet, h]
    · simp [objSet, objGet, h, ih]

theorem objGet_objSet_ne (a : Arena) (k n : ID) (v : MetaObject) (h : k ≠ n) :
    objGet (objSet a k v) n = objGet a n := by
  induction a with
  | nil => simp [objSet, objGet, h]
  | cons p rest ih =>
    by_cases hp : p.1 = k
    · simp [objSet, objGet, hp, h, ih]
    · simp [objSet, objGet, hp, ih]

theorem objSet_of_objGet (a : Arena) (k : ID) (v : MetaObject)
    (h : objGet a k = some v) : objSet a k v = a := by
  induction a with
  | nil => simp [objGet] at h
  | cons p rest ih =>
    by_cases hp : p.1 = k
    · rw [objGet, if_pos hp] at h
      obtain ⟨hk, hv⟩ : p.1 = k ∧ p.2 = v := ⟨hp, by injection h⟩
      rw [objSet]
      cases p
      simp_all
    · rw [objGet, if_neg hp] at h
      rw [objSet]
      cases p
      simp only at hp ⊢
      rw [if_neg hp, ih h]

theorem objGet_createMetaObject_ne (a : Arena) (it : Item) (n : ID)
    (h : it.name ≠ n) : objGet (createMetaObject a it) n = objGet a n := by
  unfold createMetaObject
  cases it.kind
  · exact objGet_objSet_ne a it.name n _ h
  · exact objGet_objSet_ne a it.name n _ h
  · rfl

theorem map_id_of_mem {α : Type} (l : List α) (f : α → α)
    (h : ∀ x ∈ l, f x = x) : l.map f = l := by
  induction l with
  | nil => rfl
  | cons x t ih =>
    rw [List.map_cons, h x (by simp), ih (fun y hy => h y (by simp [hy]))]

theorem fidx_live (l : List Entry) (j p : Nat)
    (h : findIndexInTombstoneArray l j = some p) :
    ∃ e, l.get? p = some e ∧ e.deleted = false := by
  induction l generalizing j p with
  | nil => simp [findIndexInTombstoneArray] at h
  | cons e rest ih =>
    cases j with
    | zero =>
      by_cases hd : e.deleted
      · rw [findIndexInTombstoneArray, if_pos hd] at h
        cases hfi : findIndexInTombstoneArray rest 0 with
        | none => rw [hfi] at h; simp at h
        | some q =>
          rw [hfi] at h
          simp only [Option.map] at h
          obtain ⟨f, hf, hfd⟩ := ih 0 q hfi
          injection h with hp
          exact ⟨f, by rw [← hp]; simpa using hf, hfd⟩
      · rw [findIndexInTombstoneArray, if_neg hd] at h
        injection h with hp
        exact ⟨e, by rw [← hp]; simp, by simpa using hd⟩
    | succ m =>
      by_cases hd : e.deleted
      · rw [findIndexInTombstoneArray, if_pos hd] at h
        cases hfi : findIndexInTombstoneArray rest (m + 1) with
        | none => rw [hfi] at h; simp at h
        | some q =>
          rw [hfi] at h
          simp only [Option.map] at h
          obtain ⟨f, hf, hfd⟩ := ih (m + 1) q hfi
          injection h with hp
          exact ⟨f, by rw [← hp]; simpa using hf, hfd⟩
      · rw [findIndexInTombstoneArray, if_neg hd] at h
        cases hfi : findIndexInTombstoneArray rest m with
        | none => rw [hfi] at h; simp at h
        | some q =>
          rw [hfi] at h
          simp only [Option.map] at h
          obtain ⟨f, hf, hfd⟩ := ih m q hfi
          injection h with hp
          exact ⟨f, by rw [← hp]; simpa using hf, hfd⟩

theorem mem_set_of_get_ne {α : Type} (l : List α) (p : Nat) (x y e : α)
    (hm : e ∈ l) (hp : l.get? p = some x) (hne : x ≠ e) : e ∈ l.set p y := by
  induction l generalizing p with
  | nil => simp at hm
  | cons a t ih =>
    cases p with
    | zero =>
      have hax : a = x := by simpa using hp
      rcases List.mem_cons.mp hm with he | he
      · exact absurd (hax ▸ he.symm) hne
      · simp [List.set, he]
    | succ q =>
      rcases List.mem_cons.mp hm with he | he
      · simp [List.set, he]
      · have := ih q he (by simpa using hp)
        simp [List.set, this]

theorem mem_insertInList (l : List Entry) (i : Nat) (x e : Entry)
    (hm : e ∈ l) : e ∈ insertInList l i x := by
  unfold insertInList
  have := List.take_append_drop i l
  rcases List.mem_append.mp (by rw [this]; exact hm) with h | h
  · exact List.mem_append.mpr (Or.inl h)
  · exact List.mem_append.mpr (Or.inr (List.mem_cons.mpr (Or.inr h)))

theorem deleted_mem_assignToList (l : List Entry) (k : Nat) (it : Item)
    (e : Entry) (hm : e ∈ l) (hd : e.deleted = true) : e ∈ assignToList l k it := by
  unfold assignToList
  cases hfi : findIndexInTombstoneArray l k with
  | none => exact hm
  | some p =>
    obtain ⟨x, hx, hxd⟩ := fidx_live l k p hfi
    refine mem_set_of_get_ne l p x _ e hm hx ?_
    intro hxe
    rw [hxe, hd] at hxd
    exact Bool.noConfusion hxd

theorem flagIf_of_deleted (at_ : ID) (e : Entry) (hd : e.deleted = true) :
    flagIf at_ e = e := by
  unfold flagIf
  by_cases hn : e.name = some at_
  · rw [if_pos hn]
    cases e
    simp_all
  · rw [if_neg hn]

theorem tombstoneIn_arr (l : List Entry) (at_ : ID) :
    tombstoneIn (MetaObject.arr l) at_ = MetaObject.arr (l.map (flagIf at_)) := rfl

theorem tombstoneIn_map (m : List (Index × Entry)) (at_ : ID) :
    tombstoneIn (MetaObject.map m) at_ =
      MetaObject.map (m.map (fun p => (p.1, flagIf at_ p.2))) := rfl

theorem applyChange_assign (a : Arena) (c : BackendChange) (it : Item)
    (at_ : Index) (parent : ID) (h : c.action = Action.assign it at_ parent) :
    applyChange a c = applyAssignment a it at_ parent := by
  rw [applyChange, h]

theorem applyChange_listAssign (a : Arena) (c : BackendChange) (it : Item)
    (at_ : Nat) (parent : ID) (h : c.action = Action.listAssign it at_ parent) :
    applyChange a c = applyListAssignment a it at_ parent := by
  rw [applyChange, h]

theorem applyChange_insert (a : Arena) (c : BackendChange) (it : Item)
    (after : Option ID) (parent : ID) (h : c.action = Action.insert it after parent) :
    applyChange a c = applyInsertion a it after parent := by
  rw [applyChange, h]

theorem applyChange_delete (a : Arena) (c : BackendChange)
    (at_ parent : ID) (h : c.action = Action.delete at_ parent) :
    applyChange a c = applyDeletion a at_ parent := by
  rw [applyChange, h]

theorem getElementImpl_append (a : Arena) (nm : Option ID) (xs ys : List Index) :
    getElementImpl a nm (xs ++ ys) =
      match getElementImpl a nm xs with
      | Except.ok nm2 => getElementImpl a nm2 ys
      | Except.error e => Except.error e := by
  induction xs generalizing nm with
  | nil => rfl
  | cons i t ih =>
    rw [List.cons_append]
    simp only [getElementImpl]
    cases getElementStep a nm i with
    | ok nm2 => exact ih nm2
    | error e => rfl

/-! ### Characterizations of the two `addChange` branches -/

theorem addChange_fast (s : State) (cs : List BackendChange)
    (c : BackendChange) (rest : List BackendChange)
    (h : processBatch s cs = c :: rest) (hc : s.clock < c.clock) :
    addChange s cs =
      ({ changes := s.changes ++ (c :: rest),
         seenIds := s.seenIds ++ (c :: rest).map toID,
         clock := (lastOf c rest).clock,
         objects :=
           (applyChanges (s.seenIds ++ (c :: rest).map toID) s.objects (c :: rest)).1 },
       c :: rest,
       (applyChanges (s.seenIds ++ (c :: rest).map toID) s.objects (c :: rest)).2) := by
  unfold addChange
  rw [h]
  simp only []
  rw [if_pos hc]
  rfl

theorem addChange_slow (s : State) (cs : List BackendChange)
    (c : BackendChange) (rest : List BackendChange)
    (h : processBatch s cs = c :: rest) (hc : ¬s.clock < c.clock) :
    addChange s cs =
      ({ changes := sortChanges (s.changes ++ (c :: rest)),
         seenIds := s.seenIds ++ (c :: rest).map toID,
         clock := s.clock,
         objects :=
           (reapplyAllChanges (s.seenIds ++ (c :: rest).map toID)
             (sortChanges (s.changes ++ (c :: rest)))).1 },
       c :: rest,
       (reapplyAllChanges (s.seenIds ++ (c :: rest).map toID)
         (sortChanges (s.changes ++ (c :: rest)))).2) := by
  unfold addChange
  rw [h]
  simp only []
  rw [if_neg hc]
  rfl

theorem addChange_ret (s : State) (cs : List BackendChange) :
    (addChange s cs).2.1 = processBatch s cs := by
  cases h : processBatch s cs with
  | nil => unfold addChange; rw [h]
  | cons c rest =>
    by_cases hc : s.clock < c.clock
    · rw [addChange_fast s cs c rest h hc]
    · rw [addChange_slow s cs c rest h hc]

theorem addChange_seen (s : State) (cs : List BackendChange) :
    (addChange s cs).1.seenIds = s.seenIds ++ (processBatch s cs).map toID := by
  cases h : processBatch s cs with
  | nil => unfold addChange; rw [h]; simp [witness]
  | cons c rest =>
    by_cases hc : s.clock < c.clock
    · rw [addChange_fast s cs c rest h hc]
    · rw [addChange_slow s cs c rest h hc]

/-! ### Claim theorems -/

/-- C1 (code bug): convergence fails. The same five causally independent
operations (`op1` … `op5`), submitted in two different arrival orders, leave
the two replicas with logs holding exactly the same operations, yet different
`render()` output: the slow path (`insertChanges`) never advances the
high-water clock, so `op4` later takes the fast path although clock 5 is
already in the log, is appended behind it, and is applied last. -/
theorem claim1_convergence_fails :
    sortChanges sA3.changes = sB1.changes ∧
    sA3.changes.length = sB1.changes.length ∧
    render sA3.objects ≠ render sB1.objects := by decide

/-- C2: when the sorted accepted batch is non-empty, its head carries the
minimum clock; if that clock is strictly above the high-water clock the batch
is appended to the log's tail, the clock is advanced (to the batch's last
clock, strictly above the old clock) and only the batch is applied on top of
the current Container Store; otherwise the batch is merge-sorted into the log
and the Container Store is rebuilt from the empty root by replaying the
entire (sorted) log. -/
theorem claim2_fast_slow_dispatch (s : State) (cs : List BackendChange)
    (c : BackendChange) (rest : List BackendChange)
    (h : processBatch s cs = c :: rest) :
    (∀ x ∈ c :: rest, c.clock ≤ x.clock) ∧
    (s.clock < c.clock →
      addChange s cs =
        ({ changes := s.changes ++ (c :: rest),
           seenIds := s.seenIds ++ (c :: rest).map toID,
           clock := (lastOf c rest).clock,
           objects :=
             (applyChanges (s.seenIds ++ (c :: rest).map toID) s.objects (c :: rest)).1 },
         c :: rest,
         (applyChanges (s.seenIds ++ (c :: rest).map toID) s.objects (c :: rest)).2) ∧
      s.clock < (addChange s cs).1.clock) ∧
    (¬s.clock < c.clock →
      addChange s cs =
        ({ changes := sortChanges (s.changes ++ (c :: rest)),
           seenIds := s.seenIds ++ (c :: rest).map toID,
           clock := s.clock,
           objects :=
             (reapplyAllChanges (s.seenIds ++ (c :: rest).map toID)
               (sortChanges (s.changes ++ (c :: rest)))).1 },
         c :: rest,
         (reapplyAllChanges (s.seenIds ++ (c :: rest).map toID)
           (sortChanges (s.changes ++ (c :: rest)))).2) ∧
      (sortChanges (s.changes ++ (c :: rest))).Sorted changeLE) := by
  have hsort : (c :: rest).Sorted changeLE := h ▸ sorted_processBatch s cs
  have hhead : ∀ x ∈ c :: rest, c.clock ≤ x.clock := by
    intro x hx
    rcases List.mem_cons.mp hx with rfl | hx
    · exact le_refl _
    · exact clock_le_of_changeLE _ _ ((List.sorted_cons.mp hsort).1 x hx)
  refine ⟨hhead, ?_, ?_⟩
  · intro hc
    refine ⟨addChange_fast s cs c rest h hc, ?_⟩
    rw [addChange_fast s cs c rest h hc]
    exact lt_of_lt_of_le hc (hhead _ (lastOf_mem c rest))
  · intro hc
    exact ⟨addChange_slow s cs c rest h hc, sorted_sortChanges _⟩

/-- Witness for C2 at a concrete input: submitting `[op1, op3]` to the empty
replica takes the fast path and advances the clock. -/
theorem claim2_fast_slow_dispatch_witness :
    processBatch emptyState [op1, op3] = op1 :: [op3] ∧
    emptyState.clock < op1.clock ∧
    emptyState.clock < (addChange emptyState [op1, op3]).1.clock := by
  refine ⟨by decide, by decide, ?_⟩
  exact ((claim2_fast_slow_dispatch emptyState [op1, op3] op1 [op3]
    (by decide)).2.1 (by decide)).2

/-- C3 (code bug): a deferred operation does not become visible when its
dependency arrives in a later submit call that takes the fast path.  `opO5`
(clock 5, depending on `opD4`) is gated at `t2`; when `opD4` arrives, the
stale high-water clock (3) lets it take the fast path, so no rebuild happens:
`opO5` stays in the log, its dependency is now seen, yet its key `j` is
absent from the rendered document. -/
theorem claim3_deferred_not_applied :
    gatePass t2.seenIds opO5 = false ∧
    opO5 ∈ t3.changes ∧
    (toID opD4) ∈ t3.seenIds ∧
    gatePass t3.seenIds opO5 = true ∧
    RTok.keyTok (Index.str "j") ∉ render t3.objects ∧
    render t3.objects =
      [RTok.mapOpen, RTok.keyTok (Index.str "k"), RTok.primTok (Val.str "x"),
       RTok.keyTok (Index.str "q"), RTok.primTok (Val.str "w"),
       RTok.keyTok (Index.str "m"), RTok.primTok (Val.str "t"), RTok.mapClose] := by
  decide

/-- C4 counterexample: a duplicate inside a single batch is not filtered —
the duplicate filter only consults the seen-set from before the call, so
submitting `[op1, op1]` grows the log by two while submitting `[op1]` grows
it by one. -/
theorem claim4_same_batch_dup_cex :
    (addChange emptyState [op1, op1]).1.changes.length ≠
      (addChange emptyState [op1]).1.changes.length := by decide

/-- C4 amended: operations whose identity was already seen at the start of
the call are filtered out — they are in neither the processed batch nor the
return value — and a batch consisting solely of already-seen identities
leaves the state (hence log length and `render()` output) unchanged. -/
theorem claim4_prior_resubmission_noop (s : State) (cs : List BackendChange) :
    (∀ c ∈ cs, seen s (toID c) = true →
      c ∉ processBatch s cs ∧ c ∉ (addChange s cs).2.1) ∧
    ((∀ c ∈ cs, seen s (toID c) = true) →
      addChange s cs = (s, [], none) ∧
      (addChange s cs).1.changes.length = s.changes.length ∧
      render (addChange s cs).1.objects = render s.objects) := by
  constructor
  · intro c hc hs
    have hnp : c ∉ processBatch s cs := by
      intro hmem
      have hm2 := (mem_processBatch s cs c).mp hmem
      rw [hs] at hm2
      exact Bool.noConfusion hm2.2
    exact ⟨hnp, by rw [addChange_ret]; exact hnp⟩
  · intro hall
    have hpb : processBatch s cs = [] := by
      unfold processBatch
      have hfil : cs.filter (fun c => !seen s (toID c)) = [] := by
        rw [List.filter_eq_nil_iff]
        intro a ha
        rw [hall a ha]
        decide
      rw [hfil]
      rfl
    have heq : addChange s cs = (s, [], none) := by
      unfold addChange
      rw [hpb]
      simp [witness]
    exact ⟨heq, by rw [heq], by rw [heq]⟩

/-- Witness for C4's amended statement: after `op1` is accepted, resubmitting
it is a complete no-op. -/
theorem claim4_prior_resubmission_noop_witness :
    seen (addChange emptyState [op1]).1 (toID op1) = true ∧
    addChange (addChange emptyState [op1]).1 [op1] =
      ((addChange emptyState [op1]).1, [], none) := by
  refine ⟨by decide, ?_⟩
  exact ((claim4_prior_resubmission_noop (addChange emptyState [op1]).1 [op1]).2
    (by decide)).1

/-- C5: structural conflict is fatal: an `Assign` whose target container is
list-shaped, and an `Insert` or `ListAssign` whose target container is
map-shaped, yield the structural-conflict error instead of an updated arena,
so the wrongly-shaped container is never mutated. -/
theorem claim5_structural_conflict (a : Arena) (it : Item) (i : Index) (k : Nat)
    (after : Option ID) (parent : ID) (l : List Entry) (m : List (Index × Entry)) :
    (objGet a parent = some (MetaObject.arr l) →
      applyAssignment a it i parent = Except.error SErr.conflict) ∧
    (objGet a parent = some (MetaObject.map m) →
      applyListAssignment a it k parent = Except.error SErr.conflict ∧
      applyInsertion a it after parent = Except.error SErr.conflict) := by
  constructor
  · intro h
    unfold applyAssignment
    rw [h]
  · intro h
    constructor
    · unfold applyListAssignment
      rw [h]
    · unfold applyInsertion
      rw [h]

/-- Witness for C5: assigning a key into a list container and inserting into
the map container `ROOT_PARENT` both fail with the structural conflict. -/
theorem claim5_structural_conflict_witness :
    objGet aC5 (ID.op 7 7) = some (MetaObject.arr []) ∧
    applyAssignment aC5 itW5 (Index.str "a") (ID.op 7 7) = Except.error SErr.conflict ∧
    applyInsertion aC5 itW5 none ID.rootParent = Except.error SErr.conflict := by
  refine ⟨rfl, ?_, ?_⟩
  · exact (claim5_structural_conflict aC5 itW5 (Index.str "a") 0 none (ID.op 7 7)
      [] []).1 rfl
  · exact ((claim5_structural_conflict aC5 itW5 (Index.str "a") 0 none ID.rootParent
      [] [(Index.id ID.root,
        { name := none, value := none, kind := ObjectKind.other, deleted := true })]).2
      rfl).2

/-- C6: a `Delete` whose parent container exists never errors: it flags
`deleted := true` on exactly the entries whose stored identity equals the
delete target (that is what `tombstoneIn` does), and when every matching
entry is already tombstoned — in particular when the target is absent — the
application is a perfect no-op. -/
theorem claim6_delete_tolerated (a : Arena) (parent at_ : ID) (mo : MetaObject)
    (h : objGet a parent = some mo) :
    applyDeletion a at_ parent = Except.ok (objSet a parent (tombstoneIn mo at_)) ∧
    ((∀ e ∈ entriesOf mo, e.name = some at_ → e.deleted = true) →
      applyDeletion a at_ parent = Except.ok a) := by
  have h1 : applyDeletion a at_ parent =
      Except.ok (objSet a parent (tombstoneIn mo at_)) := by
    unfold applyDeletion
    rw [h]
  refine ⟨h1, fun hall => ?_⟩
  have hts : tombstoneIn mo at_ = mo := by
    cases mo with
    | arr l =>
      rw [tombstoneIn_arr]
      congr 1
      refine map_id_of_mem l _ (fun e he => ?_)
      by_cases hn : e.name = some at_
      · exact flagIf_of_deleted at_ e (hall e (by simpa [entriesOf] using he) hn)
      · unfold flagIf
        rw [if_neg hn]
    | map m =>
      rw [tombstoneIn_map]
      congr 1
      refine map_id_of_mem m _ (fun p hp => ?_)
      by_cases hn : p.2.name = some at_
      · have hd : p.2.deleted = true := by
          refine hall p.2 ?_ hn
          simpa [entriesOf] using List.mem_map_of_mem (fun q => q.2) hp
        simp [flagIf_of_deleted at_ p.2 hd]
      · simp [flagIf, hn]
  rw [h1, hts, objSet_of_objGet a parent mo h]

/-- Witness for C6: deleting an absent target inside `aC6`'s list container
raises nothing and changes nothing; deleting the already-tombstoned entry is
likewise a no-op. -/
theorem claim6_delete_tolerated_witness :
    applyDeletion aC6 (ID.op 9 9) (ID.op 8 8) = Except.ok aC6 ∧
    applyDeletion aC6 (ID.op 3 3) (ID.op 8 8) = Except.ok aC6 := by
  constructor
  · exact (claim6_delete_tolerated aC6 (ID.op 8 8) (ID.op 9 9)
      (MetaObject.arr
        [{ name := some (ID.op 2 2), value := some (Val.str "u"),
           kind := ObjectKind.other, deleted := false },
         { name := some (ID.op 3 3), value := some (Val.str "d"),
           kind := ObjectKind.other, deleted := true }]) rfl).2 (by decide)
  · exact (claim6_delete_tolerated aC6 (ID.op 8 8) (ID.op 3 3)
      (MetaObject.arr
        [{ name := some (ID.op 2 2), value := some (Val.str "u"),
           kind := ObjectKind.other, deleted := false },
         { name := some (ID.op 3 3), value := some (Val.str "d"),
           kind := ObjectKind.other, deleted := true }]) rfl).2 (by decide)

/-- C7 (code bug): after the slow-path submit of clocks {2, 5} on top of a
log with clocks {1, 3}, the high-water clock is still 3 while the greatest
clock in the log is 5 (`insertChanges` never advances the clock), and
`next()` returns 4 even though clock 5 is already in the log. -/
theorem claim7_clock_not_highwater :
    sA2.clock = 3 ∧
    maxClock sA2.changes = 5 ∧
    sA2.clock ≠ maxClock sA2.changes ∧
    next sA2 = 4 := by decide

/-- C8 counterexample: in a map container, a later `Assign` to the key of a
tombstoned entry replaces it wholesale: afterwards the slot at `k` is live
again and no tombstoned entry (and no entry named `op 2 50`) remains in the
container — a subsequent operation application removed the tombstoned Entry
from its slot, contradicting the claim for map-shaped containers. -/
theorem claim8_map_resurrect_cex :
    entA8.deleted = true ∧
    mapGet [(Index.str "k", entA8)] (Index.str "k") = some entA8 ∧
    applyChange aC8 cB8 =
      Except.ok [(ID.op 1 50, MetaObject.map [(Index.str "k", entB8)])] ∧
    mapGet [(Index.str "k", entB8)] (Index.str "k") = some entB8 ∧
    entB8.deleted = false ∧
    List.filter (fun p => p.2.deleted) [(Index.str "k", entB8)] = [] ∧
    List.filter (fun p => p.2.name == some (ID.op 2 50)) [(Index.str "k", entB8)] = [] :=
  ⟨rfl, rfl, rfl, rfl, rfl, rfl, rfl⟩

/-- C8 amended: in a *list*-shaped container, a tombstoned entry survives
every successful operation application whose item identity does not collide
with the container's identity: `ListAssign` overwrites only a live slot
(tombstone-aware resolution), `Insert` only splices, `Delete` only flags, and
an `Assign` can never succeed against a list; map-shaped containers do not
enjoy this (see the counterexample). -/
theorem claim8_list_tombstones_preserved (a a2 : Arena) (c : BackendChange)
    (n : ID) (l : List Entry)
    (hn : objGet a n = some (MetaObject.arr l))
    (hap : applyChange a c = Except.ok a2)
    (hfresh : itemNameOf c.action ≠ some n) :
    ∃ l2, objGet a2 n = some (MetaObject.arr l2) ∧
      ∀ e ∈ l, e.deleted = true → e ∈ l2 := by
  cases hact : c.action with
  | assign it at_ parent =>
    rw [applyChange_assign a c it at_ parent hact] at hap
    rw [hact] at hfresh
    simp only [itemNameOf, ne_eq, Option.some_inj] at hfresh
    unfold applyAssignment at hap
    cases hg : objGet a parent with
    | none =>
      simp only [hg] at hap
      exact Except.noConfusion hap
    | some mo =>
      cases mo with
      | arr l3 =>
        simp only [hg] at hap
        exact Except.noConfusion hap
      | map m =>
        simp only [hg, Except.ok.injEq] at hap
        have hpar : parent ≠ n := by
          intro he
          rw [he, hn] at hg
          exact MetaObject.noConfusion (Option.some.inj hg)
        refine ⟨l, ?_, fun e he _ => he⟩
        rw [← hap, objGet_createMetaObject_ne _ it n hfresh,
          objGet_objSet_ne _ parent n _ hpar, hn]
  | listAssign it at_ parent =>
    rw [applyChange_listAssign a c it at_ parent hact] at hap
    rw [hact] at hfresh
    simp only [itemNameOf, ne_eq, Option.some_inj] at hfresh
    unfold applyListAssignment at hap
    cases hg : objGet a parent with
    | none =>
      simp only [hg] at hap
      exact Except.noConfusion hap
    | some mo =>
      cases mo with
      | map m =>
        simp only [hg] at hap
        exact Except.noConfusion hap
      | arr l3 =>
        simp only [hg, Except.ok.injEq] at hap
        by_cases hpar : parent = n
        · have hl : l3 = l := by
            rw [hpar, hn] at hg
            exact (MetaObject.arr.inj (Option.some.inj hg)).symm
          subst hl
          subst hpar
          refine ⟨assignToList l3 at_ it, ?_, fun e he hd =>
            deleted_mem_assignToList l3 at_ it e he hd⟩
          rw [← hap, objGet_createMetaObject_ne _ it parent hfresh,
            objGet_objSet_self]
        · refine ⟨l, ?_, fun e he _ => he⟩
          rw [← hap, objGet_createMetaObject_ne _ it n hfresh,
            objGet_objSet_ne _ parent n _ hpar, hn]
  | insert it after parent =>
    rw [applyChange_insert a c it after parent hact] at hap
    rw [hact] at hfresh
    simp only [itemNameOf, ne_eq, Option.some_inj] at hfresh
    unfold applyInsertion at hap
    cases hg : objGet a parent with
    | none =>
      simp only [hg] at hap
      exact Except.noConfusion hap
    | some mo =>
      cases mo with
      | map m =>
        simp only [hg] at hap
        exact Except.noConfusion hap
      | arr l3 =>
        simp only [hg, Except.ok.injEq] at hap
        by_cases hpar : parent = n
        · have hl : l3 = l := by
            rw [hpar, hn] at hg
            exact (MetaObject.arr.inj (Option.some.inj hg)).symm
          subst hl
          subst hpar
          refine ⟨insertInList l3 (findInsertionIndex l3 after it.name) (entryOfItem it),
            ?_, fun e he _ => mem_insertInList l3 _ _ e he⟩
          rw [← hap, objGet_createMetaObject_ne _ it parent hfresh,
            objGet_objSet_self]
        · refine ⟨l, ?_, fun e he _ => he⟩
          rw [← hap, objGet_createMetaObject_ne _ it n hfresh,
            objGet_objSet_ne _ parent n _ hpar, hn]
  | delete at_ parent =>
    rw [applyChange_delete a c at_ parent hact] at hap
    unfold applyDeletion at hap
    cases hg : objGet a parent with
    | none =>
      simp only [hg] at hap
      exact Except.noConfusion hap
    | some mo =>
      simp only [hg, Except.ok.injEq] at hap
      by_cases hpar : parent = n
      · have hmo : mo = MetaObject.arr l := by
          rw [hpar, hn] at hg
          exact (Option.some.inj hg).symm
        subst hmo
        subst hpar
        refine ⟨l.map (flagIf at_), ?_, ?_⟩
        · rw [← hap, tombstoneIn_arr, objGet_objSet_self]
        · intro e he hd
          rw [← flagIf_of_deleted at_ e hd]
          exact List.mem_map_of_mem _ he
      · refine ⟨l, ?_, fun e he _ => he⟩
        rw [← hap, objGet_objSet_ne _ parent n _ hpar, hn]

/-- Witness for C8's amended statement: after inserting into `aW8`'s list,
the tombstoned entry is still a member of the container. -/
theorem claim8_list_tombstones_preserved_witness :
    objGet aW8 (ID.op 1 60) = some (MetaObject.arr [eT8, eL8]) ∧
    applyChange aW8 cW8 = Except.ok aW8r ∧
    (∃ l2, objGet aW8r (ID.op 1 60) = some (MetaObject.arr l2) ∧
      ∀ e ∈ [eT8, eL8], e.deleted = true → e ∈ l2) := by
  refine ⟨rfl, rfl, ?_⟩
  exact claim8_list_tombstones_preserved aW8 aW8r cW8 (ID.op 1 60) [eT8, eL8]
    rfl rfl (by decide)

/-- C9 amended: path resolution folds `getElementStep` over the path from
`ROOT_PARENT`; fetching a tombstoned entry yields an *absent running
identity*, so a tombstone at the final path position makes the whole
resolution yield absent, but when path indices remain after a tombstoned
entry the next step's container lookup on the absent identity fails with the
missing-element `RangeError` instead of returning absent; otherwise the next
running identity is the entry's own identity for a primitive entry and the
entry's stored value field (read as a container reference) for a map or list
entry. -/
theorem claim9_resolution_rule (a : Arena) (n : ID) (mo : MetaObject) (i : Index)
    (e : Entry) (nm : Option ID) (xs ys : List Index) :
    getElementStep a none i = Except.error SErr.missing ∧
    (objGet a n = some mo → fetchEntry mo i = Except.ok (some e) →
      (e.deleted = true → getElementStep a (some n) i = Except.ok none) ∧
      (e.deleted = false → e.kind = ObjectKind.other →
        getElementStep a (some n) i = Except.ok e.name) ∧
      (e.deleted = false → e.kind ≠ ObjectKind.other →
        getElementStep a (some n) i = Except.ok (valToID e.value))) ∧
    (getElementImpl a nm (xs ++ [i]) =
      match getElementImpl a nm xs with
      | Except.ok nm2 => getElementStep a nm2 i
      | Except.error er => Except.error er) ∧
    (getElementImpl a nm xs = Except.ok none → ys ≠ [] →
      getElementImpl a nm (xs ++ ys) = Except.error SErr.missing) := by
  refine ⟨rfl, ?_, ?_, ?_⟩
  · intro hg hf
    have hstep : getElementStep a (some n) i =
        Except.ok
          (if e.deleted then none
           else if e.kind = ObjectKind.other then e.name
           else valToID e.value) := by
      simp only [getElementStep, hg, hf]
    refine ⟨fun hd => ?_, fun hd hk => ?_, fun hd hk => ?_⟩
    · simp [hstep, hd]
    · simp [hstep, hd, hk]
    · simp [hstep, hd, hk]
  · rw [getElementImpl_append a nm xs [i]]
    cases getElementImpl a nm xs with
    | ok nm2 =>
      cases h : getElementStep a nm2 i with
      | ok v => simp [getElementImpl, h]
      | error er => simp [getElementImpl, h]
    | error er => rfl
  · intro h hys
    cases ys with
    | nil => exact absurd rfl hys
    | cons y yt =>
      rw [getElementImpl_append a nm xs (y :: yt), h]
      rfl

/-- Witness for C9's amended statement: resolving index `a` inside the
container `op 1 70` steps to the live primitive entry's own identity. -/
theorem claim9_resolution_rule_witness :
    objGet aW9 (ID.op 1 70) = some (MetaObject.map [(Index.str "a", eP9)]) ∧
    getElementStep aW9 (some (ID.op 1 70)) (Index.str "a") =
      Except.ok (some (ID.op 2 70)) := by
  refine ⟨rfl, ?_⟩
  exact ((claim9_resolution_rule aW9 (ID.op 1 70)
    (MetaObject.map [(Index.str "a", eP9)]) (Index.str "a") eP9 none [] []).2.1
    rfl rfl).2.1 rfl rfl

/-- C9 counterexample: the `ROOT` entry of the empty replica is tombstoned,
so resolving the two-index path `[ROOT, "x"]` hits a tombstone *before* the
last position; the resolution then throws the missing-element `RangeError`
(`getMetaObject(undefined)`) rather than yielding an absent identity. -/
theorem claim9_tombstone_mid_path_cex :
    getElement emptyState [Index.str "x"] = Except.error SErr.missing ∧
    Except.error SErr.missing ≠ (Except.ok none : Except SErr (Option ID)) := by
  refine ⟨rfl, ?_⟩
  intro h
  exact Except.noConfusion h

/-- C10: within one `addChange` call, the identities of the whole accepted
batch are witnessed before any operation of the batch is applied, so an
operation whose declared dependency is another operation of the same batch
passes the causal gate in that same call — regardless of whether the
dependency itself was applied or was skipped by its own gate. -/
theorem claim10_same_batch_dependency_gate (s : State) (cs : List BackendChange) :
    (witness s (processBatch s cs)).seenIds =
      s.seenIds ++ (processBatch s cs).map toID ∧
    (∀ o ∈ processBatch s cs, ∀ d, o.dep = some d →
      d ∈ (processBatch s cs).map toID →
      gatePass (witness s (processBatch s cs)).seenIds o = true) ∧
    (addChange s cs).1.seenIds = s.seenIds ++ (processBatch s cs).map toID := by
  refine ⟨rfl, ?_, addChange_seen s cs⟩
  intro o ho d hd hdm
  unfold gatePass
  rw [hd]
  exact decide_eq_true (List.mem_append.mpr (Or.inr hdm))

/-- Witness for C10: `opY10` depends on its batch-mate `opX10` (itself gated
by a missing dependency) and still passes the causal gate of the same call. -/
theorem claim10_same_batch_dependency_gate_witness :
    gatePass (witness emptyState (processBatch emptyState [opX10, opY10])).seenIds
      opY10 = true :=
  (claim10_same_batch_dependency_gate emptyState [opX10, opY10]).2.1 opY10
    (by decide) (ID.op 1 30) rfl (by decide)

end CRDTree
